import Mathlib

/-!
Verification of the SolDocs documentation agent.

This file gives a shallow embedding of the parts of the SolDocs TypeScript
code that the checked claims are about, and proves or refutes each claim.

Embedded components:
  - the JSON value model, the default serialization used by
    JSON.stringify, UTF-8 encoding, SHA-256, and Store.hashIdl
    (src/store/index.ts);
  - the Store operations on the program index, queue, docs and IDL cache,
    with base58 program-id validation (src/store/index.ts);
  - the on-chain IDL account parsing (tryParseIdl / fetchIdl in
    src/solana/idl.ts), with the zlib-inflate + JSON.parse step treated as
    an oracle parameter, since it is an external library;
  - the AI client retry loop (AIClient.generate in src/ai/client.ts), with
    the provider call treated as an oracle indexed by attempt number;
  - the agent item-processing pipeline (Agent.processProgram and
    Agent.processProgramSafe in src/agent/core.ts), with the chain fetches
    and the doc generator treated as oracles, and with a trace that counts
    doc-generator invocations and error-ring appends.

File layout: JSON and hashing first, then the Store, then IDL parsing,
the AI client, and the agent; all claim theorems come after the
definitions.
-/

set_option maxRecDepth 1000000

namespace SolDocs

/-! ### JSON values

Model of the JavaScript values the agent passes to JSON.stringify. IDL
documents are parsed JSON, so numbers are modelled as integers (every
numeric field of an Anchor IDL is an integer); object fields keep their
insertion order, exactly as JavaScript objects do. -/

inductive Json where
  | null : Json
  | bool (b : Bool) : Json
  | num (n : Int) : Json
  | str (s : String) : Json
  | arr (elems : List Json) : Json
  | obj (fields : List (String × Json)) : Json

/-- Field lookup on a JSON value: `jGet j k` is the value of field `k`
when `j` is an object containing it, and `none` otherwise (mirrors
JavaScript property access, where non-objects have no such field). -/
def jGet (j : Json) (k : String) : Option Json :=
  match j with
  | .obj fields => (fields.find? (fun kv => kv.1 == k)).map (fun kv => kv.2)
  | _ => none

/-- One hexadecimal digit, lowercase, as produced by Buffer hex output. -/
def hexDigit (n : Nat) : String :=
  if n = 0 then "0" else if n = 1 then "1" else if n = 2 then "2"
  else if n = 3 then "3" else if n = 4 then "4" else if n = 5 then "5"
  else if n = 6 then "6" else if n = 7 then "7" else if n = 8 then "8"
  else if n = 9 then "9" else if n = 10 then "a" else if n = 11 then "b"
  else if n = 12 then "c" else if n = 13 then "d" else if n = 14 then "e"
  else "f"

/-- JSON.stringify escaping of one character inside a string literal. -/
def escapeChar (c : Char) : String :=
  if c = '"' then "\\\""
  else if c = '\\' then "\\\\"
  else if c = Char.ofNat 10 then "\\n"
  else if c = Char.ofNat 13 then "\\r"
  else if c = Char.ofNat 9 then "\\t"
  else if c = Char.ofNat 8 then "\\b"
  else if c = Char.ofNat 12 then "\\f"
  else if c.toNat < 32 then
    "\\u00" ++ hexDigit (c.toNat / 16) ++ hexDigit (c.toNat % 16)
  else String.singleton c

/-- JSON.stringify rendering of a string: quotes plus escaped body. -/
def quoteStr (s : String) : String :=
  "\"" ++ String.join (s.toList.map escapeChar) ++ "\""

mutual

/-- `JSON.stringify(v)` with no spacing argument, as called by
`Store.hashIdl`: object fields are emitted in insertion order. -/
def stringify : Json → String
  | .null => "null"
  | .bool b => if b then "true" else "false"
  | .num n => toString n
  | .str s => quoteStr s
  | .arr es => "[" ++ stringifyElems es ++ "]"
  | .obj fs => "\x7b" ++ stringifyFields fs ++ "\x7d"

/-- Comma-separated serialization of array elements. -/
def stringifyElems : List Json → String
  | [] => ""
  | [j] => stringify j
  | j :: rest => stringify j ++ "," ++ stringifyElems rest

/-- Comma-separated serialization of object fields, in insertion order. -/
def stringifyFields : List (String × Json) → String
  | [] => ""
  | [(k, v)] => quoteStr k ++ ":" ++ stringify v
  | (k, v) :: rest => quoteStr k ++ ":" ++ stringify v ++ "," ++ stringifyFields rest

end

/-- UTF-8 encoding of one character (code point to bytes). -/
def utf8Char (c : Char) : List Nat :=
  let n := c.toNat
  if n < 128 then [n]
  else if n < 2048 then [192 + n / 64, 128 + n % 64]
  else if n < 65536 then [224 + n / 4096, 128 + (n / 64) % 64, 128 + n % 64]
  else [240 + n / 262144, 128 + (n / 4096) % 64, 128 + (n / 64) % 64, 128 + n % 64]

/-- UTF-8 bytes of a string, as hashed by crypto.createHash(..).update. -/
def utf8Bytes (s : String) : List Nat :=
  s.toList.flatMap utf8Char

/-! ### SHA-256 (FIPS 180-4), the algorithm behind crypto createHash. -/

/-- 2 to the 32nd, the modulus of 32-bit words. -/
def M32 : Nat := 4294967296

/-- Right rotation of a 32-bit word. -/
def rotr (n x : Nat) : Nat :=
  Nat.lor (Nat.shiftRight x n) (Nat.land (Nat.shiftLeft x (32 - n)) (M32 - 1))

/-- Addition modulo 2^32. -/
def add32 (a b : Nat) : Nat := (a + b) % M32

/-- The 64 SHA-256 round constants. -/
def shaK : List Nat :=
  [1116352408, 1899447441, 3049323471, 3921009573, 961987163, 1508970993,
   2453635748, 2870763221, 3624381080, 310598401, 607225278, 1426881987,
   1925078388, 2162078206, 2614888103, 3248222580, 3835390401, 4022224774,
   264347078, 604807628, 770255983, 1249150122, 1555081692, 1996064986,
   2554220882, 2821834349, 2952996808, 3210313671, 3336571891, 3584528711,
   113926993, 338241895, 666307205, 773529912, 1294757372, 1396182291,
   1695183700, 1986661051, 2177026350, 2456956037, 2730485921, 2820302411,
   3259730800, 3345764771, 3516065817, 3600352804, 4094571909, 275423344,
   430227734, 506948616, 659060556, 883997877, 958139571, 1322822218,
   1537002063, 1747873779, 1955562222, 2024104815, 2227730452, 2361852424,
   2428436474, 2756734187, 3204031479, 3329325298]

/-- The initial SHA-256 hash state. -/
def shaH0 : List Nat :=
  [1779033703, 3144134277, 1013904242, 2773480762,
   1359893119, 2600822924, 528734635, 1541459225]

/-- Merkle-Damgard padding: append 0x80, zeros, and the 64-bit big-endian
bit length, up to a multiple of 64 bytes. -/
def padMsg (msg : List Nat) : List Nat :=
  let len := msg.length
  let bitLen := len * 8
  let padZeros := (55 + 64 - (len % 64)) % 64
  msg ++ [0x80] ++ List.replicate padZeros 0 ++
    [(bitLen / 2 ^ 56) % 256, (bitLen / 2 ^ 48) % 256, (bitLen / 2 ^ 40) % 256,
     (bitLen / 2 ^ 32) % 256, (bitLen / 2 ^ 24) % 256, (bitLen / 2 ^ 16) % 256,
     (bitLen / 2 ^ 8) % 256, bitLen % 256]

/-- Big-endian grouping of bytes into 32-bit words. -/
def bytesToWords : List Nat → List Nat
  | b0 :: b1 :: b2 :: b3 :: rest =>
    (b0 * 2 ^ 24 + b1 * 2 ^ 16 + b2 * 2 ^ 8 + b3) :: bytesToWords rest
  | _ => []

/-- Message-schedule extension: appends `i` words to the sixteen block
words using the sigma functions. -/
def extendWords (w : List Nat) (i : Nat) : List Nat :=
  match i with
  | 0 => w
  | i' + 1 =>
    let w := extendWords w i'
    let t := w.length
    let w15 := w.getD (t - 15) 0
    let w2 := w.getD (t - 2) 0
    let s0 := Nat.xor (Nat.xor (rotr 7 w15) (rotr 18 w15)) (Nat.shiftRight w15 3)
    let s1 := Nat.xor (Nat.xor (rotr 17 w2) (rotr 19 w2)) (Nat.shiftRight w2 10)
    w ++ [(w.getD (t - 16) 0 + s0 + w.getD (t - 7) 0 + s1) % M32]

/-- One SHA-256 compression round on the eight-word working state, given
the already-added round constant plus schedule word. -/
def compressRound (st : List Nat) (kw : Nat) : List Nat :=
  match st with
  | [a, b, c, d, e, f, g, h] =>
    let s1 := Nat.xor (Nat.xor (rotr 6 e) (rotr 11 e)) (rotr 25 e)
    let ch := Nat.xor (Nat.land e f) (Nat.land (Nat.xor e (M32 - 1)) g)
    let t1 := (h + s1 + ch + kw) % M32
    let s0 := Nat.xor (Nat.xor (rotr 2 a) (rotr 13 a)) (rotr 22 a)
    let maj := Nat.xor (Nat.xor (Nat.land a b) (Nat.land a c)) (Nat.land b c)
    let t2 := (s0 + maj) % M32
    [(t1 + t2) % M32, a, b, c, (d + t1) % M32, e, f, g]
  | st => st

/-- Compression of one 64-byte block into the running hash state. -/
def compressBlock (h : List Nat) (block : List Nat) : List Nat :=
  let w := extendWords (bytesToWords block) 48
  let kws := List.zipWith (fun k wi => (k + wi) % M32) shaK w
  let st := kws.foldl compressRound h
  List.zipWith add32 h st

/-- Fuel-driven split of the padded message into 64-byte blocks. -/
def chunksAux : Nat → List Nat → List (List Nat)
  | 0, _ => []
  | _ + 1, [] => []
  | fuel + 1, l => l.take 64 :: chunksAux fuel (l.drop 64)

/-- Split into 64-byte blocks. -/
def chunks (l : List Nat) : List (List Nat) := chunksAux l.length l

/-- SHA-256 digest of a byte sequence, as a list of 32 bytes. -/
def sha256 (msg : List Nat) : List Nat :=
  let blocks := chunks (padMsg msg)
  let h := blocks.foldl compressBlock shaH0
  h.flatMap (fun w => [(w / 2 ^ 24) % 256, (w / 2 ^ 16) % 256, (w / 2 ^ 8) % 256, w % 256])

/-- Lowercase hex rendering of a byte list (digest hex output). -/
def bytesToHex (bs : List Nat) : String :=
  String.join (bs.map (fun b => hexDigit (b / 16) ++ hexDigit (b % 16)))

/-- `Store.hashIdl`: SHA-256 of the UTF-8 bytes of JSON.stringify of the
IDL, rendered as lowercase hex (src/store/index.ts line 416). -/
def hashIdl (idl : Json) : String :=
  bytesToHex (sha256 (utf8Bytes (stringify idl)))

mutual

/-- A deep structural copy of a JSON value that preserves object key
order: the clone the spec speaks about (structuredClone, or a JSON
parse of a stringify round trip). -/
def cloneJ : Json → Json
  | .null => .null
  | .bool b => .bool b
  | .num n => .num n
  | .str s => .str s
  | .arr es => .arr (cloneElems es)
  | .obj fs => .obj (cloneFields fs)

/-- Clone of a list of array elements. -/
def cloneElems : List Json → List Json
  | [] => []
  | j :: rest => cloneJ j :: cloneElems rest

/-- Clone of a list of object fields. -/
def cloneFields : List (String × Json) → List (String × Json)
  | [] => []
  | (k, v) :: rest => (k, cloneJ v) :: cloneFields rest

end

/-- Lexicographic comparison of character lists by code point. -/
def charListLe : List Char → List Char → Bool
  | [], _ => true
  | _ :: _, [] => false
  | a :: as, b :: bs =>
    if a.toNat < b.toNat then true
    else if b.toNat < a.toNat then false
    else charListLe as bs

/-- Lexicographic comparison of strings by code point. -/
def strLe (a b : String) : Bool := charListLe a.toList b.toList

/-- Ordered insertion of one object field by key. -/
def insertField (kv : String × Json) : List (String × Json) → List (String × Json)
  | [] => [kv]
  | kv2 :: rest => if strLe kv.1 kv2.1 then kv :: kv2 :: rest else kv2 :: insertField kv rest

/-- Insertion sort of object fields by key. -/
def sortFields (l : List (String × Json)) : List (String × Json) :=
  l.foldr insertField []

mutual

/-- Canonical form of a JSON value for equality under JSON semantics:
object keys are recursively sorted, so two values that differ only in
object key order have the same canonical form. -/
def sortKeysJ : Json → Json
  | .null => .null
  | .bool b => .bool b
  | .num n => .num n
  | .str s => .str s
  | .arr es => .arr (sortKeysElems es)
  | .obj fs => .obj (sortFields (sortKeysFields fs))

/-- Canonical form of a list of array elements. -/
def sortKeysElems : List Json → List Json
  | [] => []
  | j :: rest => sortKeysJ j :: sortKeysElems rest

/-- Canonical form of a list of object fields (values only; the sort of
the keys happens in sortKeysJ). -/
def sortKeysFields : List (String × Json) → List (String × Json)
  | [] => []
  | (k, v) :: rest => (k, sortKeysJ v) :: sortKeysFields rest

end

/-! ### The Store (src/store/index.ts)

The Store persists four artifacts: the program index (programs.json),
the queue (queue.json), one Documentation file per program (docs dir)
and one IdlCache file per program (idls dir). The embedding carries all
four as in-memory lists; a store operation maps a state to a result
together with the successor state. Throwing is modelled by an error
result paired with the unchanged state, which also expresses that a
validation failure performs no disk mutation. The mutex-taking Safe
variants run the same read-modify-write bodies serialized per file; in
this sequential embedding they denote the same state transformers as
the plain variants, so they are defined to be them. -/

/-- QueueItem status values. -/
inductive QStatus where
  | pending : QStatus
  | processing : QStatus
  | failed : QStatus
deriving DecidableEq, Repr

/-- ProgramMetadata status values. -/
inductive PStatus where
  | pending : PStatus
  | processing : PStatus
  | documented : PStatus
  | failed : PStatus
deriving DecidableEq, Repr

/-- A queue entry (src/types.ts). `lastError = none` models the absent /
undefined field. -/
structure QueueItem where
  programId : String
  status : QStatus
  addedAt : String
  attempts : Nat
  lastError : Option String
deriving DecidableEq, Repr

/-- A program-index entry (src/types.ts). -/
structure ProgramMetadata where
  programId : String
  name : String
  description : String
  instructionCount : Nat
  accountCount : Nat
  status : PStatus
  idlHash : String
  createdAt : String
  updatedAt : String
  errorMessage : Option String
deriving DecidableEq, Repr

/-- A generated documentation record (src/types.ts). -/
structure Documentation where
  programId : String
  name : String
  overview : String
  instructions : String
  accounts : String
  security : String
  fullMarkdown : String
  generatedAt : String
  idlHash : String
deriving DecidableEq, Repr

/-- A cached IDL record (src/types.ts). -/
structure IdlCache where
  programId : String
  idl : Json
  hash : String
  fetchedAt : String

/-- The on-disk state owned by the Store. Docs and IDL caches are keyed
by program id (one file per id). -/
structure StoreState where
  programs : List ProgramMetadata
  queue : List QueueItem
  docs : List (String × Documentation)
  idls : List (String × IdlCache)

/-- Membership in the base58 alphabet `[1-9A-HJ-NP-Za-km-z]` used by
SAFE_ID_RE (src/store/index.ts line 147). -/
def isBase58Char (c : Char) : Bool :=
  ('1' ≤ c && c ≤ '9') || ('A' ≤ c && c ≤ 'H') || ('J' ≤ c && c ≤ 'N') ||
  ('P' ≤ c && c ≤ 'Z') || ('a' ≤ c && c ≤ 'k') || ('m' ≤ c && c ≤ 'z')

/-- The test of SAFE_ID_RE: 32 to 44 base58 characters. -/
def isValidId (id : String) : Bool :=
  32 ≤ id.length && id.length ≤ 44 && id.toList.all isBase58Char

/-- The message of the error thrown by sanitizeId. -/
def invalidMsg (id : String) : String :=
  "Invalid program ID format: " ++ id

/-- First list element whose key equals `k` (the JS Array.find used with
a programId predicate). -/
def findByKey {α : Type} (key : α → String) (k : String) (l : List α) : Option α :=
  l.find? (fun y => key y == k)

/-- Replacement of the first element whose key equals `k` by `x`; the JS
pattern of mutating the object returned by find, or of assigning at the
index returned by findIndex. A list with no match is returned unchanged. -/
def replaceFirstBy {α : Type} (key : α → String) (k : String) (x : α) : List α → List α
  | [] => []
  | y :: rest => if key y == k then x :: rest else y :: replaceFirstBy key k x rest

/-- Store.getProgram: validate, then look the id up in the index. -/
def getProgram (s : StoreState) (pid : String) :
    Except String (Option ProgramMetadata) × StoreState :=
  if isValidId pid then (.ok (findByKey (fun p => p.programId) pid s.programs), s)
  else (.error (invalidMsg pid), s)

/-- Store.saveProgram: validate, then replace the entry with the same id
or append (findIndex then assign-or-push). -/
def saveProgram (s : StoreState) (p : ProgramMetadata) :
    Except String Unit × StoreState :=
  if isValidId p.programId then
    match findByKey (fun q => q.programId) p.programId s.programs with
    | some _ =>
      (.ok (), { s with programs := replaceFirstBy (fun q => q.programId) p.programId p s.programs })
    | none => (.ok (), { s with programs := s.programs ++ [p] })
  else (.error (invalidMsg p.programId), s)

/-- Store.removeProgram: validate, then filter the id out of the index. -/
def removeProgram (s : StoreState) (pid : String) :
    Except String Unit × StoreState :=
  if isValidId pid then
    (.ok (), { s with programs := s.programs.filter (fun p => p.programId != pid) })
  else (.error (invalidMsg pid), s)

/-- Store.addToQueue (src/store/index.ts lines 285 to 313): validate;
an existing non-failed entry is returned as is; an existing failed
entry is reset to pending with attempts 0 and no lastError and written
back; otherwise a fresh pending entry is appended. The Bool is isNew. -/
def addToQueue (s : StoreState) (pid : String) (now : String) :
    Except String (QueueItem × Bool) × StoreState :=
  if isValidId pid then
    match findByKey (fun q => q.programId) pid s.queue with
    | some e =>
      if e.status != .failed then (.ok (e, false), s)
      else
        let e2 : QueueItem :=
          { e with status := .pending, attempts := 0, lastError := none }
        (.ok (e2, false), { s with queue := replaceFirstBy (fun q => q.programId) pid e2 s.queue })
    | none =>
      let item : QueueItem :=
        { programId := pid, status := .pending, addedAt := now, attempts := 0, lastError := none }
      (.ok (item, true), { s with queue := s.queue ++ [item] })
  else (.error (invalidMsg pid), s)

/-- Store.addToQueueSafe: the mutex-serialized variant; same transformer
in this sequential embedding. -/
def addToQueueSafe (s : StoreState) (pid : String) (now : String) :
    Except String (QueueItem × Bool) × StoreState :=
  addToQueue s pid now

/-- A Partial QueueItem: the update object passed to updateQueueItem.
A `some` field overrides the stored one, `none` leaves it unchanged.
lastError is doubly optional because the update may itself set the field
to undefined. -/
structure QueueUpdate where
  programId : Option String
  status : Option QStatus
  addedAt : Option String
  attempts : Option Nat
  lastError : Option (Option String)

/-- The object-spread merge of a queue item with a partial update. -/
def applyUpdate (q : QueueItem) (u : QueueUpdate) : QueueItem :=
  { programId := u.programId.getD q.programId
    status := u.status.getD q.status
    addedAt := u.addedAt.getD q.addedAt
    attempts := u.attempts.getD q.attempts
    lastError := u.lastError.getD q.lastError }

/-- A partial update touching nothing. -/
def emptyUpdate : QueueUpdate :=
  { programId := none, status := none, addedAt := none, attempts := none, lastError := none }

/-- Store.updateQueueItem (src/store/index.ts lines 321 to 329):
validate; when the id is present, merge the update into that entry and
write; when it is absent, do nothing. -/
def updateQueueItem (s : StoreState) (pid : String) (u : QueueUpdate) :
    Except String Unit × StoreState :=
  if isValidId pid then
    match findByKey (fun q => q.programId) pid s.queue with
    | some e =>
      (.ok (), { s with queue := replaceFirstBy (fun q => q.programId) pid (applyUpdate e u) s.queue })
    | none => (.ok (), s)
  else (.error (invalidMsg pid), s)

/-- Store.updateQueueItemSafe: the mutex-serialized variant; same
transformer in this sequential embedding. -/
def updateQueueItemSafe (s : StoreState) (pid : String) (u : QueueUpdate) :
    Except String Unit × StoreState :=
  updateQueueItem s pid u

/-- Store.removeFromQueue: validate, then filter the id out. -/
def removeFromQueue (s : StoreState) (pid : String) :
    Except String Unit × StoreState :=
  if isValidId pid then
    (.ok (), { s with queue := s.queue.filter (fun q => q.programId != pid) })
  else (.error (invalidMsg pid), s)

/-- Store.getDocs: validate, then read the per-id docs file. -/
def getDocs (s : StoreState) (pid : String) :
    Except String (Option Documentation) × StoreState :=
  if isValidId pid then ((.ok ((findByKey (fun kv => kv.1) pid s.docs).map (fun kv => kv.2))), s)
  else (.error (invalidMsg pid), s)

/-- Store.saveDocs: validate the programId inside the record, then
overwrite the per-id docs file. -/
def saveDocs (s : StoreState) (d : Documentation) :
    Except String Unit × StoreState :=
  if isValidId d.programId then
    match findByKey (fun kv => kv.1) d.programId s.docs with
    | some _ =>
      (.ok (), { s with docs := replaceFirstBy (fun kv => kv.1) d.programId (d.programId, d) s.docs })
    | none => (.ok (), { s with docs := s.docs ++ [(d.programId, d)] })
  else (.error (invalidMsg d.programId), s)

/-- Store.removeDocs: validate, then delete the per-id docs file. -/
def removeDocs (s : StoreState) (pid : String) :
    Except String Unit × StoreState :=
  if isValidId pid then
    (.ok (), { s with docs := s.docs.filter (fun kv => kv.1 != pid) })
  else (.error (invalidMsg pid), s)

/-- Store.getIdlCache: validate, then read the per-id IDL cache file. -/
def getIdlCache (s : StoreState) (pid : String) :
    Except String (Option IdlCache) × StoreState :=
  if isValidId pid then ((.ok ((findByKey (fun kv => kv.1) pid s.idls).map (fun kv => kv.2))), s)
  else (.error (invalidMsg pid), s)

/-- Store.saveIdlCache (src/store/index.ts lines 402 to 414): validate,
hash the IDL with hashIdl, build the cache record with the current
time, overwrite the per-id file and return the record. -/
def saveIdlCache (s : StoreState) (pid : String) (idl : Json) (now : String) :
    Except String IdlCache × StoreState :=
  if isValidId pid then
    let cache : IdlCache :=
      { programId := pid, idl := idl, hash := hashIdl idl, fetchedAt := now }
    match findByKey (fun kv => kv.1) pid s.idls with
    | some _ =>
      (.ok cache, { s with idls := replaceFirstBy (fun kv => kv.1) pid (pid, cache) s.idls })
    | none => (.ok cache, { s with idls := s.idls ++ [(pid, cache)] })
  else (.error (invalidMsg pid), s)

/-- Store.removeIdlCache: validate, then delete the per-id file. -/
def removeIdlCache (s : StoreState) (pid : String) :
    Except String Unit × StoreState :=
  if isValidId pid then
    (.ok (), { s with idls := s.idls.filter (fun kv => kv.1 != pid) })
  else (.error (invalidMsg pid), s)

/-- The queue-uniqueness invariant: at most one QueueItem per programId,
stated as pairwise distinctness of the projected id list. -/
def uniqueQueue (q : List QueueItem) : Prop :=
  List.Pairwise (fun a b => a ≠ b) (q.map (fun i => i.programId))

/-- A sequence of addToQueue calls, each given as an id plus the
timestamp the call would observe, applied from the left. -/
def runAddCalls (calls : List (String × String)) (s : StoreState) : StoreState :=
  calls.foldl (fun st c => (addToQueue st c.1 c.2).2) s

/-! ### On-chain IDL account parsing (src/solana/idl.ts)

The account payload is a byte sequence; the inflate-then-JSON.parse step
is performed by the external pako library and the JS runtime, so it is
abstracted as a decode oracle from byte slices to optional JSON values,
`none` standing for any exception out of inflate or parse. Everything
else (the candidate header offsets, the bounds checks on the declared
length, the slicing, and the acceptance test on the parsed value) is
translated from the source. -/

/-- The little-endian 32-bit read data.readUInt32LE(off); out-of-range
bytes read as 0, which the surrounding bounds checks make unreachable. -/
def readU32LE (data : List Nat) (off : Nat) : Nat :=
  data.getD off 0 + 256 * data.getD (off + 1) 0 +
    65536 * data.getD (off + 2) 0 + 16777216 * data.getD (off + 3) 0

/-- The acceptance test at the end of tryParseIdl:
`idl && idl.instructions && Array.isArray(idl.instructions)`. A parsed
value passes exactly when it is an object whose instructions field is an
array; the array may be empty, because an empty JS array is truthy. -/
def looksLikeIdl (j : Json) : Bool :=
  match jGet j "instructions" with
  | some (.arr _) => true
  | _ => false

/-- tryParseIdl (src/solana/idl.ts lines 51 to 79): reject when fewer
than four bytes follow the header; read the declared length; reject a
zero, overlong, or over-ten-million length; decode the slice; accept a
decoded value that looks like an IDL. -/
def tryParseIdl (decode : List Nat → Option Json) (data : List Nat) (headerOffset : Nat) :
    Option Json :=
  if data.length ≤ headerOffset + 4 then none
  else
    let dataLen := readU32LE data headerOffset
    if dataLen = 0 || dataLen > data.length - headerOffset - 4 || dataLen > 10000000 then none
    else
      match decode ((data.drop (headerOffset + 4)).take dataLen) with
      | none => none
      | some j => if looksLikeIdl j then some j else none

/-- The offset-cascade of fetchIdl (src/solana/idl.ts lines 29 to 45)
applied to the fetched account bytes: try the new format at offset 44,
then the old format at 12, then the minimal format at 8; null when all
three candidates fail. -/
def parseIdlAccountData (decode : List Nat → Option Json) (data : List Nat) : Option Json :=
  match tryParseIdl decode data 44 with
  | some j => some j
  | none =>
    match tryParseIdl decode data 12 with
    | some j => some j
    | none => tryParseIdl decode data 8

/-- Modelled from the claim text of C3, for comparison with the code:
one candidate offset per the spec sentence, with the acceptance condition
amended to: the parsed result has an instructions field that is an array
(the spec says non-empty; the code also accepts an empty array). -/
def specCandidate (accept : Json → Bool) (decode : List Nat → Option Json)
    (data : List Nat) (off : Nat) : Option Json :=
  let len := readU32LE data off
  if 0 < len ∧ len ≤ data.length - off - 4 ∧ len ≤ 10000000 then
    match decode ((data.drop (off + 4)).take len) with
    | none => none
    | some j => if accept j then some j else none
  else none

/-- The spec-described fetch over the three offsets in order, with a
pluggable acceptance condition. -/
def specFetchIdl (accept : Json → Bool) (decode : List Nat → Option Json)
    (data : List Nat) : Option Json :=
  List.findSome? (specCandidate accept decode data) [44, 12, 8]

/-- The acceptance condition the claim states: a non-empty instructions
array. -/
def acceptNonEmpty (j : Json) : Bool :=
  match jGet j "instructions" with
  | some (.arr (_ :: _)) => true
  | _ => false

/-! ### The AI client retry loop (src/ai/client.ts)

AIClient.generate makes up to three provider calls. The provider is an
oracle from the attempt number to an outcome: a thrown error carrying a
message, or a list of content blocks. The embedding returns the result
(the thrown message or the returned text) together with the list of
backoff sleeps the loop performed, in milliseconds. -/

/-- One content block of a provider response: a text block carrying its
text, or a block of any other kind. -/
inductive Block where
  | text (s : String) : Block
  | other : Block
deriving DecidableEq, Repr

/-- The text of the first text-kind content block of a provider
response, or the empty string when no text block exists. -/
def firstTextBlock (blocks : List Block) : String :=
  match blocks.find? (fun b => match b with | .text _ => true | .other => false) with
  | some (.text s) => s
  | _ => ""

/-- Substring containment, the semantics of String.prototype.includes. -/
def strContains (s pat : String) : Bool :=
  decide (pat.toList <:+: s.toList)

/-- The retry test of AIClient.generate: the error message contains
429, or contains 529, or contains 500. -/
def retryableAi (m : String) : Bool :=
  strContains m "429" || strContains m "529" || strContains m "500"

/-- The retry loop of AIClient.generate (src/ai/client.ts lines 52 to
76): `fuel` counts the remaining iterations of `for (attempt = 0;
attempt < 3; ...)`, `attempt` the current index; on a retryable error
the loop sleeps 2^attempt times 2000 ms and continues, on any other
error it rethrows the error, and when the loop ends it throws the last
error. -/
def aiGenerateAux (call : Nat → Except String (List Block)) :
    Nat → Nat → List Nat → Option String → Except String String × List Nat
  | 0, _, delays, lastErr => (.error (lastErr.getD ""), delays)
  | fuel + 1, attempt, delays, _ =>
    match call attempt with
    | .ok blocks => (.ok (firstTextBlock blocks), delays)
    | .error m =>
      if retryableAi m then
        aiGenerateAux call fuel (attempt + 1) (delays ++ [2 ^ attempt * 2000]) (some m)
      else (.error m, delays)

/-- AIClient.generate for a given provider oracle: the returned string or
thrown message, plus the backoff sleeps performed. -/
def aiGenerate (call : Nat → Except String (List Block)) : Except String String × List Nat :=
  aiGenerateAux call 3 0 [] none

/-! ### The agent item pipeline (src/agent/core.ts)

processProgram and processProgramSafe, with the three external effects
as oracles fixed in an environment: the chain program-info fetch, the
chain IDL fetch, and the doc generator (whose invocation stands for the
LLM calls of a generation run). A trace records how many times the doc
generator ran and which error-ring appends (addError calls) happened. -/

/-- The slice of a chain account info the agent reads. -/
structure ProgInfo where
  executable : Bool
deriving DecidableEq, Repr

/-- The external effects one processProgram run can perform, with their
outcomes: fetchProgramInfo (an exception, null, or an account), fetchIdl
(an exception, null, or an IDL), the doc generator (an exception or a
Documentation), and the timestamp the run observes. -/
structure AgentEnv where
  fetchInfo : Except String (Option ProgInfo)
  fetchIdlResult : Except String (Option Json)
  gen : Json → String → String → Except String Documentation
  now : String

/-- Observable side effects of a run: the number of doc-generator
invocations and the error-ring appends (programId, message). -/
structure AgentTrace where
  genCalls : Nat
  ringAppends : List (String × String)
deriving DecidableEq, Repr

/-- The empty trace. -/
def noTrace : AgentTrace := { genCalls := 0, ringAppends := [] }

/-- The trace of a run that invoked the doc generator once. -/
def oneGenTrace : AgentTrace := { genCalls := 1, ringAppends := [] }

/-- getIdlName (src/types.ts line 72): the IDL name field when truthy,
else the metadata name when truthy, else the literal unknown_program;
the empty string counts as falsy. -/
def getIdlName (idl : Json) : String :=
  match jGet idl "name" with
  | some (.str s) =>
    if s != "" then s else getIdlNameFallback idl
  | _ => getIdlNameFallback idl
where
  /-- The metadata.name fallback of getIdlName. -/
  getIdlNameFallback (idl : Json) : String :=
    match (jGet idl "metadata").bind (fun m => jGet m "name") with
    | some (.str s) => if s != "" then s else "unknown_program"
    | _ => "unknown_program"

/-- The element count of an array field, with the JS `|| 0` fallback the
agent uses for optional arrays. -/
def jArrayCount (idl : Json) (k : String) : Nat :=
  match jGet idl k with
  | some (.arr l) => l.length
  | _ => 0

/-- The description derivation in step 5 of processProgram: the first
200 characters of the overview, with every hash mark, star and newline
replaced by a space, then trimmed. -/
def descriptionOf (overview : String) : String :=
  String.trim (String.mk (((overview.toList).take 200).map
    (fun c => if c = '#' || c = '*' || c = Char.ofNat 10 then ' ' else c)))

/-- The partial update of step 1, taking the status to processing. -/
def processingUpdate : QueueUpdate :=
  { emptyUpdate with status := some .processing }

/-- The ProgramMetadata upsert of step 5 of processProgram: name and
counts from the IDL, status documented, hash of the fresh save, createdAt
from the prior IDL cache fetchedAt when a prior cache existed and the
current time otherwise, updatedAt now. -/
def documentedMeta (pid : String) (idl : Json) (docs : Documentation)
    (newHash : String) (existingCache : Option IdlCache) (now : String) : ProgramMetadata :=
  { programId := pid
    name := getIdlName idl
    description := descriptionOf docs.overview
    instructionCount := jArrayCount idl "instructions"
    accountCount := jArrayCount idl "accounts"
    status := .documented
    idlHash := newHash
    createdAt := (existingCache.map (fun c => c.fetchedAt)).getD now
    updatedAt := now
    errorMessage := none }

/-- Agent.processProgram (src/agent/core.ts lines 158 to 219). Step 1
marks the queue item processing; step 2 takes the cached IDL or fetches
program info and IDL from the chain; step 3 re-saves the IDL cache and
skips regeneration when a prior cache and prior docs exist and the prior
hash equals the fresh one, removing the queue item; steps 4 to 7 run the
generator, save the docs, upsert the metadata and remove the queue item.
Errors propagate to the caller together with the state reached so far. -/
def processProgram (env : AgentEnv) (s0 : StoreState) (pid : String) :
    Except String Unit × StoreState × AgentTrace :=
  match updateQueueItem s0 pid processingUpdate with
  | (.error e, s1) => (.error e, s1, noTrace)
  | (.ok _, s1) =>
    match (getIdlCache s1 pid).1 with
    | .error e => (.error e, s1, noTrace)
    | .ok cached =>
      let idlStep : Except String Json :=
        match cached with
        | some c => .ok c.idl
        | none =>
          match env.fetchInfo with
          | .error e => .error e
          | .ok none => .error "Program account not found on Solana"
          | .ok (some info) =>
            if !info.executable then .error "Account is not an executable program"
            else
              match env.fetchIdlResult with
              | .error e => .error e
              | .ok none =>
                .error "No Anchor IDL found (not on-chain, not uploaded). Use POST /api/programs/:id/idl to upload one."
              | .ok (some idl) => .ok idl
      match idlStep with
      | .error e => (.error e, s1, noTrace)
      | .ok idl =>
        match (getIdlCache s1 pid).1 with
        | .error e => (.error e, s1, noTrace)
        | .ok existingCache =>
          match saveIdlCache s1 pid idl env.now with
          | (.error e, s2) => (.error e, s2, noTrace)
          | (.ok newCache, s2) =>
            match (getDocs s2 pid).1 with
            | .error e => (.error e, s2, noTrace)
            | .ok existingDocs =>
              let unchanged : Bool :=
                match existingCache, existingDocs with
                | some ec, some _ => ec.hash == newCache.hash
                | _, _ => false
              if unchanged then
                match removeFromQueue s2 pid with
                | (.error e, s3) => (.error e, s3, noTrace)
                | (.ok _, s3) => (.ok (), s3, noTrace)
              else
                match env.gen idl pid newCache.hash with
                | .error e => (.error e, s2, oneGenTrace)
                | .ok docs =>
                  match saveDocs s2 docs with
                  | (.error e, s3) => (.error e, s3, oneGenTrace)
                  | (.ok _, s3) =>
                    match saveProgram s3 (documentedMeta pid idl docs newCache.hash existingCache env.now) with
                    | (.error e, s4) => (.error e, s4, oneGenTrace)
                    | (.ok _, s4) =>
                      match removeFromQueue s4 pid with
                      | (.error e, s5) => (.error e, s5, oneGenTrace)
                      | (.ok _, s5) => (.ok (), s5, oneGenTrace)

/-- The queue update of the catch block of processProgramSafe: status
failed, attempts incremented by one, lastError the thrown message. -/
def failUpdate (item : QueueItem) (msg : String) : QueueUpdate :=
  { emptyUpdate with
      status := some .failed
      attempts := some (item.attempts + 1)
      lastError := some (some msg) }

/-- The ProgramMetadata upsert of the catch block of processProgramSafe:
status failed, the first eight characters of the id as name, createdAt
from the queue item addedAt, errorMessage the thrown message. -/
def failedMeta (item : QueueItem) (msg : String) (now : String) : ProgramMetadata :=
  { programId := item.programId
    name := (item.programId.toList.take 8).asString ++ "..."
    description := ""
    instructionCount := 0
    accountCount := 0
    status := .failed
    idlHash := ""
    createdAt := item.addedAt
    updatedAt := now
    errorMessage := some msg }

/-- Agent.processProgramSafe (src/agent/core.ts lines 131 to 156): run
processProgram; on a thrown error, mark the queue item failed with one
more attempt and the message, upsert a failed ProgramMetadata, and
append to the error ring. An error thrown inside the catch block itself
(an invalid id) propagates. -/
def processProgramSafe (env : AgentEnv) (s0 : StoreState) (item : QueueItem) :
    Except String Unit × StoreState × AgentTrace :=
  match processProgram env s0 item.programId with
  | (.ok u, s1, t) => (.ok u, s1, t)
  | (.error msg, s1, t) =>
    match updateQueueItem s1 item.programId (failUpdate item msg) with
    | (.error e, s2) => (.error e, s2, t)
    | (.ok _, s2) =>
      match saveProgram s2 (failedMeta item msg env.now) with
      | (.error e, s3) => (.error e, s3, t)
      | (.ok _, s3) =>
        (.ok (), s3, { t with ringAppends := t.ringAppends ++ [(item.programId, msg)] })

/-- Projection used by the claims about metadata fields: the createdAt
of the stored index entry for an id. -/
def createdAtOf (s : StoreState) (pid : String) : Option String :=
  (findByKey (fun p => p.programId) pid s.programs).map (fun p => p.createdAt)

/-- Projection: the status of the stored index entry for an id. -/
def statusOf (s : StoreState) (pid : String) : Option PStatus :=
  (findByKey (fun p => p.programId) pid s.programs).map (fun p => p.status)

/-! ### Concrete inputs used by witnesses and counterexamples -/

/-- A valid base58 program id (43 characters), the seeded id the test
suite also uses. -/
def validPid : String := "dRiftyHA39MWEi3m9aunc5MzRF1JYuBsbn6VPcn33UH"

/-- The empty store. -/
def emptyStore : StoreState := { programs := [], queue := [], docs := [], idls := [] }

/-- C6 instantiation data: a metadata record carrying an invalid id. -/
def invalidMeta : ProgramMetadata :=
  { programId := "bad", name := "", description := "", instructionCount := 0, accountCount := 0,
    status := .pending, idlHash := "", createdAt := "", updatedAt := "", errorMessage := none }

/-- C6 instantiation data: a docs record carrying an invalid id. -/
def invalidDocs : Documentation :=
  { programId := "bad", name := "", overview := "", instructions := "", accounts := "",
    security := "", fullMarkdown := "", generatedAt := "", idlHash := "" }

/-- C2 data: an object with fields a then b. -/
def jOrderA : Json := .obj [("a", .num 1), ("b", .num 2)]

/-- C2 data: the JSON-equal object with fields b then a. -/
def jOrderB : Json := .obj [("b", .num 2), ("a", .num 1)]

/-- C3 data: an IDL whose instructions array is empty. -/
def jEmptyInstr : Json := .obj [("instructions", .arr [])]

/-- C3 data: a decode oracle (inflate plus parse) whose output is the
empty-instructions IDL; zlib can produce any such document. -/
def decodeEmptyInstr : List Nat → Option Json := fun _ => some jEmptyInstr

/-- C3 data: a 49-byte account payload whose offset-44 header declares a
one-byte body. -/
def idlData49 : List Nat := List.replicate 44 0 ++ [1, 0, 0, 0, 0]

/-- C4 witness data: the cache record for the witness scenario. -/
def c4Cache : IdlCache :=
  { programId := validPid
    idl := .obj [("name", .str "test_program"), ("instructions", .arr [.obj [("name", .str "init")]])]
    hash := hashIdl (.obj [("name", .str "test_program"), ("instructions", .arr [.obj [("name", .str "init")]])])
    fetchedAt := "2024-01-01T00:00:00.000Z" }

/-- C4 witness data: the existing documentation for the witness scenario. -/
def c4Docs : Documentation :=
  { programId := validPid, name := "test_program", overview := "ov", instructions := "ins",
    accounts := "acc", security := "sec", fullMarkdown := "full",
    generatedAt := "2024-01-01T00:00:00.000Z", idlHash := c4Cache.hash }

/-- C4 witness data: the store holding a pending queue item, the cache
and the docs for the witness id. -/
def c4Store : StoreState :=
  { programs := []
    queue := [{ programId := validPid, status := .pending, addedAt := "t0",
                attempts := 0, lastError := none }]
    docs := [(validPid, c4Docs)]
    idls := [(validPid, c4Cache)] }

/-- C4 witness data: an environment whose oracles are never consulted on
the shortcut path. -/
def c4Env : AgentEnv :=
  { fetchInfo := .error "unused", fetchIdlResult := .error "unused",
    gen := fun _ _ _ => .error "generator must not run", now := "2024-02-02T00:00:00.000Z" }


/-- C5 data: the IDL of the counterexample scenario. -/
def c5Idl : Json :=
  .obj [("name", .str "test_program"), ("instructions", .arr [.obj [("name", .str "init")]])]

/-- C5 data: a prior IDL cache fetched mid-2021 whose stored hash is the
hash of its own IDL. -/
def c5Cache : IdlCache :=
  { programId := validPid, idl := c5Idl, hash := hashIdl c5Idl,
    fetchedAt := "2021-06-01T00:00:00.000Z" }

/-- C5 data: the documentation the generator oracle returns. -/
def c5Docs : Documentation :=
  { programId := validPid, name := "test_program", overview := "overview text",
    instructions := "ins", accounts := "acc", security := "sec", fullMarkdown := "full",
    generatedAt := "2022-01-01T00:00:00.000Z", idlHash := hashIdl c5Idl }

/-- C5 data: a store whose index already holds a metadata record created
at the start of 2020, with the prior cache but no docs. -/
def c5Store : StoreState :=
  { programs := [{ programId := validPid, name := "test_program", description := "",
                   instructionCount := 1, accountCount := 0, status := .documented,
                   idlHash := hashIdl c5Idl, createdAt := "2020-01-01T00:00:00.000Z",
                   updatedAt := "2020-01-01T00:00:00.000Z", errorMessage := none }]
    queue := [{ programId := validPid, status := .pending, addedAt := "t0",
                attempts := 0, lastError := none }]
    docs := []
    idls := [(validPid, c5Cache)] }

/-- C5 data: the environment of the scenario, observing the start of
2022 as the current time. -/
def c5Env : AgentEnv :=
  { fetchInfo := .error "unused", fetchIdlResult := .error "unused",
    gen := fun _ _ _ => .ok c5Docs, now := "2022-01-01T00:00:00.000Z" }

/-- C1 data: the queue item of the permanent-failure scenario, already
at ten attempts. -/
def c1Item : QueueItem :=
  { programId := validPid, status := .pending, addedAt := "t0",
    attempts := 10, lastError := some "previous failure" }

/-- C1 data: a store holding the ten-attempt item and a cached IDL, with
no docs yet. -/
def c1Store : StoreState :=
  { programs := [], queue := [c1Item], docs := [], idls := [(validPid, c5Cache)] }

/-- C1 data: an environment whose generator succeeds. -/
def c1Env : AgentEnv :=
  { fetchInfo := .error "unused", fetchIdlResult := .error "unused",
    gen := fun _ _ _ => .ok c5Docs, now := "2022-01-01T00:00:00.000Z" }


/-! ## Theorems -/

section ListLemmas

variable {α : Type} (key : α → String)

/-- findByKey misses exactly when no element carries the key. -/
theorem findByKey_eq_none {k : String} {l : List α} :
    findByKey key k l = none ↔ ∀ y ∈ l, key y ≠ k := by
  simp [findByKey, List.find?_eq_none]

/-- On a list with pairwise-distinct keys, findByKey finds the member
that carries the key. -/
theorem findByKey_eq_some_of_uniq {k : String} {x : α} {l : List α}
    (hu : List.Pairwise (fun a b => a ≠ b) (l.map key))
    (hx : x ∈ l) (hk : key x = k) : findByKey key k l = some x := by
  induction l with
  | nil => cases hx
  | cons y rest ih =>
    have hu2 : List.Pairwise (fun a b => a ≠ b) (key y :: rest.map key) := by simpa using hu
    obtain ⟨hhead, htail⟩ := List.pairwise_cons.mp hu2
    rcases List.mem_cons.mp hx with rfl | hmem
    · unfold findByKey
      rw [List.find?_cons_of_pos _ (by simp [hk])]
    · have hne : key y ≠ k := by
        have hh := hhead (key x) (List.mem_map_of_mem key hmem)
        rwa [hk] at hh
      unfold findByKey
      rw [List.find?_cons_of_neg _ (by simp [hne])]
      exact ih htail hmem

/-- Replacing the first carrier of a key by an element with the same key
leaves the key list unchanged. -/
theorem replaceFirstBy_map_key {k : String} {x : α} {l : List α} (hk : key x = k) :
    (replaceFirstBy key k x l).map key = l.map key := by
  induction l with
  | nil => rfl
  | cons y rest ih =>
    by_cases h : key y = k
    · simp [replaceFirstBy, h, hk]
    · simp [replaceFirstBy, h, ih]

/-- The replacement element is a member of the result whenever some list
element carries the key. -/
theorem mem_replaceFirstBy {k : String} {x y : α} {l : List α}
    (hy : y ∈ l) (hk : key y = k) : x ∈ replaceFirstBy key k x l := by
  induction l with
  | nil => cases hy
  | cons z rest ih =>
    rcases List.mem_cons.mp hy with rfl | hmem
    · simp [replaceFirstBy, hk]
    · by_cases h : key z = k
      · simp [replaceFirstBy, h]
      · simp only [replaceFirstBy, beq_iff_eq, h, if_false]
        exact List.mem_cons_of_mem z (ih hmem)

/-- After replacing the first carrier of a key, findByKey returns the
replacement, provided the key was present and the replacement carries it. -/
theorem findByKey_replaceFirstBy {k : String} {x y : α} {l : List α}
    (hy : findByKey key k l = some y) (hk : key x = k) :
    findByKey key k (replaceFirstBy key k x l) = some x := by
  induction l with
  | nil => simp [findByKey] at hy
  | cons z rest ih =>
    by_cases h : key z = k
    · simp only [replaceFirstBy, beq_iff_eq, h, if_true]
      unfold findByKey
      rw [List.find?_cons_of_pos _ (by simp [hk])]
    · unfold findByKey at hy
      rw [List.find?_cons_of_neg _ (by simp [h])] at hy
      simp only [replaceFirstBy, beq_iff_eq, h, if_false]
      unfold findByKey
      rw [List.find?_cons_of_neg _ (by simp [h])]
      exact ih hy

/-- findByKey on an appended singleton that carries the key, after a
miss on the prefix. -/
theorem findByKey_append_singleton {k : String} {x : α} {l : List α}
    (hl : findByKey key k l = none) (hk : key x = k) :
    findByKey key k (l ++ [x]) = some x := by
  induction l with
  | nil =>
    unfold findByKey
    simp only [List.nil_append]
    rw [List.find?_cons_of_pos _ (by simp [hk])]
  | cons z rest ih =>
    unfold findByKey at hl ⊢
    by_cases h : key z = k
    · rw [List.find?_cons_of_pos _ (by simp [h])] at hl; cases hl
    · rw [List.find?_cons_of_neg _ (by simp [h])] at hl
      simp only [List.cons_append]
      rw [List.find?_cons_of_neg _ (by simp [h])]
      exact ih hl

/-- Every element of a filtered list satisfies the filter. -/
theorem all_filter_self (p : α → Bool) (l : List α) : (l.filter p).all p = true := by
  simp only [List.all_eq_true]
  intro x hx
  exact (List.mem_filter.mp hx).2

end ListLemmas

/-- C6: for every string that fails the base58 32-to-44 test, each of the
twelve Store operations that takes a program id returns the
input-validation error of sanitizeId and leaves the store state
untouched (no disk mutation). -/
theorem c6_id_safety (s : StoreState) (id now : String) (u : QueueUpdate)
    (p : ProgramMetadata) (d : Documentation) (idl : Json)
    (hp : p.programId = id) (hd : d.programId = id)
    (h : isValidId id = false) :
    getProgram s id = (.error (invalidMsg id), s) ∧
    saveProgram s p = (.error (invalidMsg id), s) ∧
    removeProgram s id = (.error (invalidMsg id), s) ∧
    addToQueue s id now = (.error (invalidMsg id), s) ∧
    updateQueueItem s id u = (.error (invalidMsg id), s) ∧
    removeFromQueue s id = (.error (invalidMsg id), s) ∧
    getDocs s id = (.error (invalidMsg id), s) ∧
    saveDocs s d = (.error (invalidMsg id), s) ∧
    removeDocs s id = (.error (invalidMsg id), s) ∧
    getIdlCache s id = (.error (invalidMsg id), s) ∧
    saveIdlCache s id idl now = (.error (invalidMsg id), s) ∧
    removeIdlCache s id = (.error (invalidMsg id), s) := by
  refine ⟨?_, ?_, ?_, ?_, ?_, ?_, ?_, ?_, ?_, ?_, ?_, ?_⟩ <;>
    simp [getProgram, saveProgram, removeProgram, addToQueue, updateQueueItem,
      removeFromQueue, getDocs, saveDocs, removeDocs, getIdlCache, saveIdlCache,
      removeIdlCache, hp, hd, h]

/-- C6 witness: the invalid id "bad" makes getProgram fail on the empty
store without touching it. -/
theorem c6_id_safety_witness :
    getProgram emptyStore "bad" = (.error (invalidMsg "bad"), emptyStore) :=
  (c6_id_safety emptyStore "bad" "now" emptyUpdate invalidMeta invalidDocs Json.null
    rfl rfl (by decide)).1

/-- C10: for a valid program id that has no entry in the queue,
updateQueueItem and updateQueueItemSafe succeed with any partial update,
change nothing, and leave the queue file exactly as it was. -/
theorem c10_update_missing_noop (s : StoreState) (pid : String) (u : QueueUpdate)
    (hv : isValidId pid = true)
    (habs : ∀ q ∈ s.queue, q.programId ≠ pid) :
    updateQueueItem s pid u = (.ok (), s) ∧
    updateQueueItemSafe s pid u = (.ok (), s) := by
  have hnone : findByKey (fun (q : QueueItem) => q.programId) pid s.queue = none :=
    (findByKey_eq_none (fun (q : QueueItem) => q.programId)).mpr habs
  constructor <;> simp [updateQueueItem, updateQueueItemSafe, hv, hnone]

/-- C10 witness: updating an id absent from a one-item queue is a no-op. -/
theorem c10_update_missing_noop_witness :
    updateQueueItem
      { programs := [], docs := [], idls := [],
        queue := [{ programId := "PhoeNiXZ8ByJGLkxNfZRnkUfjvmuYqLR89jjFHGqdXY",
                    status := .pending, addedAt := "t0", attempts := 0, lastError := none }] }
      validPid emptyUpdate =
    (.ok (),
      { programs := [], docs := [], idls := [],
        queue := [{ programId := "PhoeNiXZ8ByJGLkxNfZRnkUfjvmuYqLR89jjFHGqdXY",
                    status := .pending, addedAt := "t0", attempts := 0, lastError := none }] }) :=
  (c10_update_missing_noop _ validPid emptyUpdate (by decide) (by decide)).1

/-- C9: the AIClient.generate retry loop, characterized over every
provider oracle. A first-attempt success returns the text of the first
text block (or the empty string via firstTextBlock) with no backoff; an
error whose message lacks 429, 529 and 500 is rethrown unchanged at
once; a retryable error is retried after a backoff of 2 to the attempt
number times 2000 ms; at most three attempts happen in every case, and
after a third retryable failure the loop performs its final backoff
sleep and throws the last error. -/
theorem c9_ai_retry_policy (call : Nat → Except String (List Block))
    (b0 b1 b2 : List Block) (m0 m1 m2 : String) :
    (call 0 = .ok b0 → aiGenerate call = (.ok (firstTextBlock b0), [])) ∧
    (call 0 = .error m0 → retryableAi m0 = false →
      aiGenerate call = (.error m0, [])) ∧
    (call 0 = .error m0 → retryableAi m0 = true → call 1 = .ok b1 →
      aiGenerate call = (.ok (firstTextBlock b1), [2 ^ 0 * 2000])) ∧
    (call 0 = .error m0 → retryableAi m0 = true → call 1 = .error m1 →
      retryableAi m1 = false → aiGenerate call = (.error m1, [2 ^ 0 * 2000])) ∧
    (call 0 = .error m0 → retryableAi m0 = true → call 1 = .error m1 →
      retryableAi m1 = true → call 2 = .ok b2 →
      aiGenerate call = (.ok (firstTextBlock b2), [2 ^ 0 * 2000, 2 ^ 1 * 2000])) ∧
    (call 0 = .error m0 → retryableAi m0 = true → call 1 = .error m1 →
      retryableAi m1 = true → call 2 = .error m2 → retryableAi m2 = false →
      aiGenerate call = (.error m2, [2 ^ 0 * 2000, 2 ^ 1 * 2000])) ∧
    (call 0 = .error m0 → retryableAi m0 = true → call 1 = .error m1 →
      retryableAi m1 = true → call 2 = .error m2 → retryableAi m2 = true →
      aiGenerate call = (.error m2, [2 ^ 0 * 2000, 2 ^ 1 * 2000, 2 ^ 2 * 2000])) := by
  refine ⟨?_, ?_, ?_, ?_, ?_, ?_, ?_⟩ <;>
    intros <;>
    simp_all [aiGenerate, aiGenerateAux]

/-- C9 witness: an authentication-style error message without 429, 500
or 529 propagates immediately with no backoff. -/
theorem c9_ai_retry_policy_witness :
    aiGenerate (fun _ => .error "401 invalid x-api-key") =
      (.error "401 invalid x-api-key", []) :=
  (c9_ai_retry_policy (fun _ => .error "401 invalid x-api-key")
    [] [] [] "401 invalid x-api-key" "" "").2.1 rfl (by decide)

/-- A found element carries the searched key. -/
theorem findByKey_key {α : Type} (key : α → String) {k : String} {y : α} {l : List α}
    (hy : findByKey key k l = some y) : key y = k := by
  unfold findByKey at hy
  have h := List.find?_some hy
  simpa [beq_iff_eq] using h

/-- One addToQueue call preserves queue uniqueness: the existing-entry
branches replace in place (same id), and the fresh-entry branch appends
an id the find just proved absent. -/
theorem addToQueue_preserves_uniq (s : StoreState) (pid now : String)
    (h : uniqueQueue s.queue) : uniqueQueue ((addToQueue s pid now).2).queue := by
  by_cases hv : isValidId pid
  · rcases hfind : findByKey (fun (q : QueueItem) => q.programId) pid s.queue with _ | e
    · have habs := (findByKey_eq_none (fun (q : QueueItem) => q.programId)).mp hfind
      simp only [addToQueue, hv, if_true, hfind]
      unfold uniqueQueue at h ⊢
      simp only [List.map_append, List.map_cons, List.map_nil]
      rw [List.pairwise_append]
      refine ⟨h, by simp, ?_⟩
      intro a ha b hb
      rcases List.mem_map.mp ha with ⟨y, hy, rfl⟩
      simp only [List.mem_cons, List.not_mem_nil, or_false] at hb
      subst hb
      exact habs y hy
    · have hkey : e.programId = pid := findByKey_key (fun (q : QueueItem) => q.programId) hfind
      by_cases hst : e.status = .failed
      · have hbranch : (e.status != QStatus.failed) = false := by simp [hst]
        simp only [addToQueue, hv, if_true, hfind, hbranch, Bool.false_eq_true, if_false]
        unfold uniqueQueue at h ⊢
        rw [replaceFirstBy_map_key (fun (q : QueueItem) => q.programId) (by simpa using hkey)]
        simpa using h
      · simp only [addToQueue, hv, if_true, hfind]
        have : (e.status != QStatus.failed) = true := by
          simpa [bne_iff_ne] using hst
        rw [this]
        simpa using h
  · simp only [addToQueue, Bool.not_eq_true] at hv ⊢
    rw [hv]
    simpa using h

/-- C7: queue uniqueness is an invariant of addToQueue (and of
addToQueueSafe, which is the same transformer serialized by the file
mutex): after any sequence of calls from a state with at most one
QueueItem per programId, at most one QueueItem exists per programId. -/
theorem c7_queue_uniqueness (calls : List (String × String)) (s : StoreState)
    (h : uniqueQueue s.queue) : uniqueQueue (runAddCalls calls s).queue := by
  induction calls generalizing s with
  | nil => exact h
  | cons c rest ih =>
    exact ih ((addToQueue s c.1 c.2).2) (addToQueue_preserves_uniq s c.1 c.2 h)

/-- C7 witness: two adds of the same id from the empty store keep the
queue duplicate-free. -/
theorem c7_queue_uniqueness_witness :
    uniqueQueue (runAddCalls [(validPid, "t1"), (validPid, "t2")] emptyStore).queue :=
  c7_queue_uniqueness [(validPid, "t1"), (validPid, "t2")] emptyStore (by simp [uniqueQueue, emptyStore])

/-- C8: on a duplicate-free queue holding a failed item for a valid id,
addToQueue returns that item reset to pending with attempts 0 and no
lastError, reports it as not new, and persists the reset item in the
written queue. -/
theorem c8_retry_reset (s : StoreState) (pid now : String) (item : QueueItem)
    (hv : isValidId pid = true) (hu : uniqueQueue s.queue) (hmem : item ∈ s.queue)
    (hid : item.programId = pid) (hst : item.status = .failed) :
    (addToQueue s pid now).1 =
      .ok ({ item with status := .pending, attempts := 0, lastError := none }, false) ∧
    { item with status := .pending, attempts := 0, lastError := none } ∈
      (addToQueue s pid now).2.queue := by
  have hfind : findByKey (fun (q : QueueItem) => q.programId) pid s.queue = some item :=
    findByKey_eq_some_of_uniq (fun (q : QueueItem) => q.programId) hu hmem hid
  simp only [addToQueue, hv, if_true, hfind, hst]
  refine ⟨rfl, ?_⟩
  exact mem_replaceFirstBy (fun (q : QueueItem) => q.programId) hmem hid

/-- C8 witness: a failed item with seven attempts and a stored error is
reset to a pending item with zero attempts and no error. -/
theorem c8_retry_reset_witness :
    (addToQueue
      { programs := [], docs := [], idls := [],
        queue := [{ programId := validPid, status := .failed, addedAt := "t0",
                    attempts := 7, lastError := some "oops" }] }
      validPid "t1").1 =
    .ok ({ programId := validPid, status := .pending, addedAt := "t0",
           attempts := 0, lastError := none }, false) :=
  (c8_retry_reset
    { programs := [], docs := [], idls := [],
      queue := [{ programId := validPid, status := .failed, addedAt := "t0",
                  attempts := 7, lastError := some "oops" }] }
    validPid "t1"
    { programId := validPid, status := .failed, addedAt := "t0",
      attempts := 7, lastError := some "oops" }
    (by decide) (by simp [uniqueQueue]) (by simp) rfl rfl).1

mutual

/-- A deep clone is the identity on JSON values. -/
theorem cloneJ_eq : ∀ j : Json, cloneJ j = j
  | .null => rfl
  | .bool _ => rfl
  | .num _ => rfl
  | .str _ => rfl
  | .arr es => by rw [cloneJ, cloneElems_eq]
  | .obj fs => by rw [cloneJ, cloneFields_eq]

/-- A deep clone is the identity on element lists. -/
theorem cloneElems_eq : ∀ l : List Json, cloneElems l = l
  | [] => rfl
  | j :: rest => by rw [cloneElems, cloneJ_eq, cloneElems_eq]

/-- A deep clone is the identity on field lists. -/
theorem cloneFields_eq : ∀ l : List (String × Json), cloneFields l = l
  | [] => rfl
  | (k, v) :: rest => by rw [cloneFields, cloneJ_eq, cloneFields_eq]

end

/-- C2 counterexample: the two JSON-equal objects that differ only in
key order (equal canonical forms under recursive key sorting) receive
different hashes from hashIdl, because JSON.stringify serializes fields
in insertion order, so the claimed stable, byte-identical serialization
for JSON-equal inputs does not exist in this code. -/
theorem c2_hash_counterexample :
    sortKeysJ jOrderA = sortKeysJ jOrderB ∧ hashIdl jOrderA ≠ hashIdl jOrderB :=
  ⟨rfl, by decide⟩

/-- C2 as amended: hashIdl is deterministic over the serialization that
it actually uses. A deep, order-preserving clone always hashes equal to
the original, and any two IDL values with equal insertion-order
JSON.stringify output hash equal; JSON-equal values that order object
keys differently may hash differently. -/
theorem c2_hash_determinism :
    (∀ x : Json, hashIdl (cloneJ x) = hashIdl x) ∧
    (∀ x y : Json, stringify x = stringify y → hashIdl x = hashIdl y) := by
  constructor
  · intro x
    rw [cloneJ_eq]
  · intro x y h
    unfold hashIdl
    rw [h]

/-- C2 witness: the clone of the a-then-b object hashes equal to the
original, through the serialization-level determinism. -/
theorem c2_hash_determinism_witness :
    hashIdl (cloneJ jOrderA) = hashIdl jOrderA :=
  c2_hash_determinism.2 (cloneJ jOrderA) jOrderA rfl

/-- Per-offset agreement of the code candidate parser with the
spec-described candidate (acceptance condition amended): the length
guards of tryParseIdl are exactly the spec bounds, with the short-buffer
early return absorbed by the emptiness of the available range. -/
theorem tryParseIdl_eq_specCandidate (decode : List Nat → Option Json)
    (data : List Nat) (off : Nat) :
    tryParseIdl decode data off = specCandidate looksLikeIdl decode data off := by
  unfold tryParseIdl specCandidate
  simp only [Bool.or_eq_true, decide_eq_true_eq, gt_iff_lt]
  split_ifs <;> first | rfl | omega

/-- C3 as amended: the account parsing of fetchIdl equals the
spec-described procedure (offsets 44, 12, 8 in order; little-endian
32-bit declared length; bounds 0 < length, length at most the bytes
after the header, length at most ten million), with the acceptance
condition amended from a non-empty instructions array to an
instructions field that is an array, possibly empty. -/
theorem c3_idl_parse_amended (decode : List Nat → Option Json) (data : List Nat) :
    parseIdlAccountData decode data = specFetchIdl looksLikeIdl decode data := by
  unfold parseIdlAccountData specFetchIdl
  rw [tryParseIdl_eq_specCandidate, tryParseIdl_eq_specCandidate,
    tryParseIdl_eq_specCandidate]
  cases h44 : specCandidate looksLikeIdl decode data 44 with
  | some j => simp [List.findSome?_cons, h44]
  | none =>
    cases h12 : specCandidate looksLikeIdl decode data 12 with
    | some j => simp [List.findSome?_cons, h44, h12]
    | none =>
      simp only [List.findSome?_cons, h44, h12]
      cases specCandidate looksLikeIdl decode data 8 <;> rfl

/-- C3 counterexample: on a 49-byte account whose offset-44 header
declares a one-byte body, with a decode oracle producing an IDL whose
instructions array is empty, fetchIdl accepts and returns the document,
while the claimed acceptance condition (non-empty instructions) rejects
every candidate and would return null. -/
theorem c3_idl_parse_counterexample :
    parseIdlAccountData decodeEmptyInstr idlData49 = some jEmptyInstr ∧
    acceptNonEmpty jEmptyInstr = false ∧
    specFetchIdl acceptNonEmpty decodeEmptyInstr idlData49 = none :=
  ⟨rfl, rfl, rfl⟩

/-- For a valid id, updateQueueItem succeeds and touches only the queue. -/
theorem updateQueueItem_ok (s : StoreState) (pid : String) (u : QueueUpdate)
    (hv : isValidId pid = true) :
    ∃ q2, updateQueueItem s pid u = (.ok (), { s with queue := q2 }) := by
  unfold updateQueueItem
  rw [hv]
  cases hfind : findByKey (fun (q : QueueItem) => q.programId) pid s.queue with
  | none => exact ⟨s.queue, rfl⟩
  | some e => exact ⟨_, rfl⟩

/-- C4: re-processing a program that already has an IDL cache whose hash
is the hash of its own IDL (the fresh save reproduces it) plus an
existing Documentation takes the unchanged-hash shortcut: the run
succeeds, the doc generator never runs (no LLM call), the docs files
are untouched, and no queue entry for the id survives. -/
theorem c4_idempotent_reprocess (env : AgentEnv) (s : StoreState) (pid : String)
    (c : IdlCache) (d : Documentation)
    (hv : isValidId pid = true)
    (hc : findByKey (fun (kv : String × IdlCache) => kv.1) pid s.idls = some (pid, c))
    (hd : findByKey (fun (kv : String × Documentation) => kv.1) pid s.docs = some (pid, d))
    (hh : c.hash = hashIdl c.idl) :
    (processProgram env s pid).1 = .ok () ∧
    (processProgram env s pid).2.2 = noTrace ∧
    (processProgram env s pid).2.1.docs = s.docs ∧
    ((processProgram env s pid).2.1.queue.all (fun q => q.programId != pid)) = true := by
  obtain ⟨q2, hq⟩ := updateQueueItem_ok s pid processingUpdate hv
  have hall := all_filter_self (fun (q : QueueItem) => q.programId != pid) q2
  simp only [processProgram, hq, getIdlCache, saveIdlCache, getDocs, removeFromQueue,
    hv, if_true, hc, hd, Option.map_some', hh, beq_self_eq_true, hall]
  exact ⟨trivial, trivial, trivial, trivial⟩

/-- C4 witness: the re-enqueued witness program is removed from the
queue with zero generator runs and untouched docs. -/
theorem c4_idempotent_reprocess_witness :
    (processProgram c4Env c4Store validPid).1 = .ok () ∧
    (processProgram c4Env c4Store validPid).2.2 = noTrace ∧
    (processProgram c4Env c4Store validPid).2.1.docs = c4Store.docs ∧
    ((processProgram c4Env c4Store validPid).2.1.queue.all (fun q => q.programId != validPid)) = true :=
  c4_idempotent_reprocess c4Env c4Store validPid c4Cache c4Docs
    (by decide) rfl rfl rfl

/-- C5 counterexample: with a metadata record created at the start of
2020, a prior cache fetched mid-2021, and no prior docs, a successful
run at the start of 2022 stores createdAt mid-2021 (the prior cache
fetchedAt), which is neither the preserved createdAt of the existing
record nor the current time. -/
theorem c5_created_at_counterexample :
    createdAtOf c5Store validPid = some "2020-01-01T00:00:00.000Z" ∧
    c5Env.now = "2022-01-01T00:00:00.000Z" ∧
    createdAtOf (processProgram c5Env c5Store validPid).2.1 validPid =
      some "2021-06-01T00:00:00.000Z" ∧
    ("2021-06-01T00:00:00.000Z" : String) ≠ "2020-01-01T00:00:00.000Z" ∧
    ("2021-06-01T00:00:00.000Z" : String) ≠ "2022-01-01T00:00:00.000Z" :=
  ⟨rfl, rfl, rfl, by decide, by decide⟩

/-- The createdAt read back after replacing the first index entry of an
id by a record carrying that id. -/
theorem createdAtOf_replace (l : List ProgramMetadata) (p : ProgramMetadata) (pid : String)
    {y : ProgramMetadata} (hpid : p.programId = pid)
    (hfind : findByKey (fun (q : ProgramMetadata) => q.programId) pid l = some y) :
    Option.map (fun (q : ProgramMetadata) => q.createdAt)
      (findByKey (fun (q : ProgramMetadata) => q.programId) pid
        (replaceFirstBy (fun (q : ProgramMetadata) => q.programId) pid p l)) =
      some p.createdAt := by
  rw [findByKey_replaceFirstBy _ hfind hpid, Option.map_some']

/-- The createdAt read back after appending an index entry for an id
that had none. -/
theorem createdAtOf_append (l : List ProgramMetadata) (p : ProgramMetadata) (pid : String)
    (hpid : p.programId = pid)
    (hfind : findByKey (fun (q : ProgramMetadata) => q.programId) pid l = none) :
    Option.map (fun (q : ProgramMetadata) => q.createdAt)
      (findByKey (fun (q : ProgramMetadata) => q.programId) pid (l ++ [p])) =
      some p.createdAt := by
  rw [findByKey_append_singleton _ hfind hpid, Option.map_some']

/-- C5 as amended: the agent upserts never read the prior metadata
createdAt. On the success path the stored createdAt is the prior IDL
cache fetchedAt when a prior cache existed, and the current time when
none did; on the failure path it is the queue item addedAt. -/
theorem c5_created_at_amended :
    (∀ (env : AgentEnv) (s : StoreState) (pid : String) (c : IdlCache) (d : Documentation),
      isValidId pid = true →
      findByKey (fun (kv : String × IdlCache) => kv.1) pid s.idls = some (pid, c) →
      findByKey (fun (kv : String × Documentation) => kv.1) pid s.docs = none →
      env.gen c.idl pid (hashIdl c.idl) = .ok d →
      d.programId = pid →
      createdAtOf (processProgram env s pid).2.1 pid = some c.fetchedAt) ∧
    (∀ (env : AgentEnv) (s : StoreState) (pid : String) (idl : Json) (d : Documentation),
      isValidId pid = true →
      findByKey (fun (kv : String × IdlCache) => kv.1) pid s.idls = none →
      env.fetchInfo = .ok (some { executable := true }) →
      env.fetchIdlResult = .ok (some idl) →
      env.gen idl pid (hashIdl idl) = .ok d →
      d.programId = pid →
      createdAtOf (processProgram env s pid).2.1 pid = some env.now) ∧
    (∀ (env : AgentEnv) (s : StoreState) (item : QueueItem) (msg : String)
       (s1 : StoreState) (t : AgentTrace),
      isValidId item.programId = true →
      processProgram env s item.programId = (.error msg, s1, t) →
      createdAtOf (processProgramSafe env s item).2.1 item.programId = some item.addedAt) := by
  refine ⟨?_, ?_, ?_⟩
  · intro env s pid c d hv hc hdocs hgen hdp
    obtain ⟨q2, hq⟩ := updateQueueItem_ok s pid processingUpdate hv
    simp only [processProgram, hq, getIdlCache, getDocs, saveIdlCache, saveDocs, saveProgram,
      documentedMeta, removeFromQueue, createdAtOf, hv, hdp, if_true, hc, hdocs,
      Option.map_some', Option.map_none', Option.getD_some, hgen]
    cases hfind : findByKey (fun (q : ProgramMetadata) => q.programId) pid s.programs with
    | some y =>
      refine createdAtOf_replace s.programs _ pid ?_ hfind
      rfl
    | none =>
      refine createdAtOf_append s.programs _ pid ?_ hfind
      rfl
  · intro env s pid idl d hv hc hinfo hidl hgen hdp
    obtain ⟨q2, hq⟩ := updateQueueItem_ok s pid processingUpdate hv
    cases hdfind : findByKey (fun (kv : String × Documentation) => kv.1) pid s.docs with
    | some dv =>
      simp only [processProgram, hq, getIdlCache, getDocs, saveIdlCache, saveDocs, saveProgram,
        documentedMeta, removeFromQueue, createdAtOf, hv, hdp, if_true, hc, hinfo, hidl, hdfind,
        Option.map_some', Option.map_none', Option.getD_none, hgen, Bool.not_true,
        Bool.false_eq_true, if_false]
      cases hfind : findByKey (fun (q : ProgramMetadata) => q.programId) pid s.programs with
      | some y =>
        refine createdAtOf_replace s.programs _ pid ?_ hfind
        rfl
      | none =>
        refine createdAtOf_append s.programs _ pid ?_ hfind
        rfl
    | none =>
      simp only [processProgram, hq, getIdlCache, getDocs, saveIdlCache, saveDocs, saveProgram,
        documentedMeta, removeFromQueue, createdAtOf, hv, hdp, if_true, hc, hinfo, hidl, hdfind,
        Option.map_some', Option.map_none', Option.getD_none, hgen, Bool.not_true,
        Bool.false_eq_true, if_false]
      cases hfind : findByKey (fun (q : ProgramMetadata) => q.programId) pid s.programs with
      | some y =>
        refine createdAtOf_replace s.programs _ pid ?_ hfind
        rfl
      | none =>
        refine createdAtOf_append s.programs _ pid ?_ hfind
        rfl
  · intro env s item msg s1 t hv hrun
    simp only [processProgramSafe, hrun]
    obtain ⟨q2, hq⟩ := updateQueueItem_ok s1 item.programId (failUpdate item msg) hv
    simp only [hq, saveProgram, failedMeta, createdAtOf, hv, if_true]
    cases hfind : findByKey (fun (q : ProgramMetadata) => q.programId) item.programId s1.programs with
    | some y =>
      refine createdAtOf_replace s1.programs _ item.programId ?_ hfind
      rfl
    | none =>
      refine createdAtOf_append s1.programs _ item.programId ?_ hfind
      rfl

/-- C5 witness: in the counterexample scenario the amended success rule
yields exactly the prior cache fetchedAt. -/
theorem c5_created_at_amended_witness :
    createdAtOf (processProgram c5Env c5Store validPid).2.1 validPid =
      some c5Cache.fetchedAt :=
  c5_created_at_amended.1 c5Env c5Store validPid c5Cache c5Docs
    (by decide) rfl rfl rfl rfl

/-- C1: the code has no MAX_ATTEMPTS check. Processing the queue item
that already carries ten attempts runs the full pipeline: the doc
generator is invoked once (an LLM-calling generation), the run succeeds,
and the stored metadata ends documented with no error message, instead
of the claimed permanent-failure outcome (item removed, metadata failed
with a Permanently-failed message, no LLM call). -/
theorem c1_no_max_attempts_check :
    c1Item.attempts = 10 ∧
    c1Item ∈ c1Store.queue ∧
    (processProgram c1Env c1Store validPid).1 = .ok () ∧
    (processProgram c1Env c1Store validPid).2.2.genCalls = 1 ∧
    statusOf (processProgram c1Env c1Store validPid).2.1 validPid = some .documented :=
  ⟨rfl, by simp [c1Store], rfl, rfl, rfl⟩

end SolDocs
